import Mathlib

/-!
Shallow embedding of the SpinalSolution firmware (the basic sketch
SpinalSolution_Basic.ino and its advanced graphing variant): the
measuring-session regression accumulators of measuringMenu1, the slope
reduction processSlopes, the per-channel graph ring buffer graphColor /
calculateGraphPosition of the advanced build, the configuration header
check and configuration-row parsing of loadConfig / checkHeader /
readConfigData, and the SD command traces emitted when a measuring
session starts.  C doubles and floats are modelled as exact rationals;
where propagation of non-finite values matters the value type is
Option Rat, with none standing for a non-finite double (NaN or
infinity).  Byte streams from the OpenLog device are lists of natural
numbers (byte values 0..255); the unbounded retry loops of the firmware
are modelled by "end of list means the retry budget ran out".
-/

namespace SpinalSolution

/-- One sensor sample: elapsed milliseconds since session start
(current_time), the six calibrated spectral readings, and the
ultraviolet reading. -/
structure Sample where
  t : ℕ
  readings : Fin 6 → ℚ
  uv : ℤ

/-- signal_resolution_multiplier in measuringMenu1. -/
def scaleM : ℚ := 1000000

/-- time_resolution_multiplier in measuringMenu1. -/
def timeResM : ℚ := 1000

/-- current_time_total_minutes = current_time / (60000.0 /
time_resolution_multiplier): elapsed milliseconds divided by 60, that
is minutes scaled by the factor 1000. -/
def ctm (t : ℕ) : ℚ := (t : ℚ) / (60000 / timeResM)

/-- maxlen in measuringMenu1: the cap on accepted regression points. -/
def maxlen : ℕ := 50

/-- ms_time = 300000 / maxlen, the rate-limit spacing in milliseconds. -/
def ms_time : ℕ := 300000 / maxlen

/-- The regression state of measuringMenu1 (basic build): x2, xy[6],
initial[6], initialTaken, past_time, datalen. -/
structure RegState where
  x2 : ℚ
  xy : Fin 6 → ℚ
  initial : Fin 6 → ℚ
  initialTaken : Bool
  past_time : ℕ
  datalen : ℕ

/-- The state at the top of the measuring loop: sums zero, initial not
yet taken, past_time = 0, datalen = 0. -/
def initReg : RegState :=
  { x2 := 0, xy := fun _ => 0, initial := fun _ => 0,
    initialTaken := false, past_time := 0, datalen := 0 }

/-- The if (!initialTaken) block: on the first loop iteration the six
initial readings are stored and the flag is set. -/
def captureInitial (s : RegState) (smp : Sample) : RegState :=
  if s.initialTaken then s
  else { s with initial := smp.readings, initialTaken := true }

/-- The acceptance test of the basic build:
datalen < maxlen && current_time - past_time > ms_time
(evaluated after the initial-capture block). -/
def acceptB (s : RegState) (smp : Sample) : Bool :=
  decide (s.datalen < maxlen ∧ ms_time < smp.t - s.past_time)

/-- The acceptance branch of the measuring loop: if the sample is
accepted, accumulate x2 += ctm^2 and
xy[i] += ((scaleM * reading[i]) / initial[i] - 1) * ctm and advance
past_time and datalen, else leave the state unchanged. -/
def regAccum (s1 : RegState) (smp : Sample) : RegState :=
  if acceptB s1 smp then
    { s1 with
      x2 := s1.x2 + ctm smp.t * ctm smp.t,
      xy := fun i =>
        s1.xy i + ((scaleM * smp.readings i) / s1.initial i - 1) * ctm smp.t,
      past_time := smp.t,
      datalen := s1.datalen + 1 }
  else s1

/-- One iteration of the measuring loop of the basic build restricted
to the regression data flow: capture the initial readings if not yet
taken, then run the acceptance branch. -/
def regStep (s : RegState) (smp : Sample) : RegState :=
  regAccum (captureInitial s smp) smp

/-- A whole measuring session over a list of samples. -/
def runReg (l : List Sample) : RegState := l.foldl regStep initReg

/-- processSlopes: slopes[i] = xy[i] / x2, no guards, in the
exact-rational model of double arithmetic. -/
def processSlopes (xy : Fin 6 → ℚ) (x2 : ℚ) : Fin 6 → ℚ :=
  fun i => xy i / x2

/-- Constant readings on all six channels, for concrete sessions. -/
def constReadings (r : ℚ) : Fin 6 → ℚ := fun _ => r

/-- The session of spec Scenario A realised on the code: an initial
(non-accepted) sample reading 100 at 300 ms, then three accepted
samples reading 110, 120, 130 at 1, 2, 3 minutes. -/
def scenarioA : List Sample :=
  [⟨300, constReadings 100, 0⟩, ⟨60000, constReadings 110, 0⟩,
   ⟨120000, constReadings 120, 0⟩, ⟨180000, constReadings 130, 0⟩]

/-- The wall-clock exit test of the basic measuring loop:
current_time_total_minutes >= 5. -/
def basicExitB (t : ℕ) : Bool := decide ((5 : ℚ) ≤ ctm t)

/-- The wall-clock exit test of the advanced measuring loop:
current_time_minutes >= 60 with current_time_minutes =
(current_time / 1000) / 60 in integer arithmetic. -/
def advExitB (t : ℕ) : Bool := decide (60 ≤ t / 1000 / 60)

/-- Index of the first sampling iteration at which the wall-clock exit
test of the basic build fires, over the list of elapsed times of the
iterations. -/
def firstExitIdx : List ℕ → Option ℕ
  | [] => none
  | t :: ts => if basicExitB t then some 0 else (firstExitIdx ts).map (· + 1)

/-- C conversion of a nonneg-or-neg rational to int: truncation toward
zero, as in the float-to-int return of calculateGraphPosition. -/
def truncQ (q : ℚ) : ℤ := if 0 ≤ q then ⌊q⌋ else -⌊-q⌋

/-- calculateGraphPosition of the advanced build:
((measurement - minX)/(maxX - minX)) * height converted to int if the
extrema differ, else 0.  The height argument receives h - 1 at the call
site in graphColor. -/
def calculateGraphPosition (minX maxX : ℚ) (height : ℤ) (measurement : ℚ) : ℤ :=
  if minX ≠ maxX then truncQ ((measurement - minX) / (maxX - minX) * (height : ℚ))
  else 0

/-- The xMax update at the top of graphColor:
if (measurement > *xMax || *xMax == -1) *xMax = measurement. -/
def updMax (xMax measurement : ℚ) : ℚ :=
  if xMax < measurement ∨ xMax = -1 then measurement else xMax

/-- The xMin update at the top of graphColor:
if (measurement < *xMin || *xMin == -1) *xMin = measurement. -/
def updMin (xMin measurement : ℚ) : ℚ :=
  if measurement < xMin ∨ xMin = -1 then measurement else xMin

/-- The shift loop of graphColor, with explicit fuel equal to the number
of remaining iterations of for (i = 1; i < stop; i++) xAr[i-1] = xAr[i];
(fuel keeps the recursion structural so that it evaluates). -/
def shiftLoopF : ℕ → List ℤ → ℕ → ℕ → List ℤ
  | 0, a, _, _ => a
  | fuel + 1, a, i, stop =>
    if i < stop then shiftLoopF fuel (a.set (i - 1) (a.getD i 0)) (i + 1) stop
    else a

/-- The shift loop of graphColor starting at index i with bound stop. -/
def shiftLoop (a : List ℤ) (i stop : ℕ) : List ℤ := shiftLoopF (stop - i) a i stop

/-- The per-channel graph state of the advanced build: the occupancy
counter xLen, the fixed position array (length = the channel width),
and the running extrema (initialised to the -1 sentinel). -/
structure GraphState where
  len : ℕ
  arr : List ℤ
  xMin : ℚ
  xMax : ℚ

/-- The boot state of one graph channel: xLen 0, array cells arbitrary
(taken as 0), extrema -1. -/
def initGraph (w : ℕ) : GraphState :=
  { len := 0, arr := List.replicate w 0, xMin := -1, xMax := -1 }

/-- One graphColor call on a channel of width w and height h restricted
to its data flow: update the extrema, compute the quantized position
with height argument h - 1, then either append (xLen < w) or run the
shift loop for (i = 1; i < xLen - 1; i++) xAr[i-1] = xAr[i] and write
the new position at index w - 1. -/
def observe (w : ℕ) (h : ℤ) (s : GraphState) (v : ℚ) : GraphState :=
  if s.len < w then
    { len := s.len + 1,
      arr := s.arr.set s.len
        (calculateGraphPosition (updMin s.xMin v) (updMax s.xMax v) (h - 1) v),
      xMin := updMin s.xMin v, xMax := updMax s.xMax v }
  else
    { len := s.len,
      arr := (shiftLoop s.arr 1 (s.len - 1)).set (w - 1)
        (calculateGraphPosition (updMin s.xMin v) (updMax s.xMax v) (h - 1) v),
      xMin := updMin s.xMin v, xMax := updMax s.xMax v }

/-- Double addition in the non-finite-tracking model: none stands for a
non-finite double and propagates. -/
def dAdd : Option ℚ → Option ℚ → Option ℚ
  | some a, some b => some (a + b)
  | _, _ => none

/-- Double subtraction in the non-finite-tracking model. -/
def dSub : Option ℚ → Option ℚ → Option ℚ
  | some a, some b => some (a - b)
  | _, _ => none

/-- Double multiplication in the non-finite-tracking model. -/
def dMul : Option ℚ → Option ℚ → Option ℚ
  | some a, some b => some (a * b)
  | _, _ => none

/-- Double division in the non-finite-tracking model: dividing by zero
yields a non-finite value (NaN or an infinity), modelled none. -/
def dDiv : Option ℚ → Option ℚ → Option ℚ
  | some a, some b => if b = 0 then none else some (a / b)
  | _, _ => none

/-- processSlopes in the non-finite-tracking double model:
slopes[i] = xy[i] / x2 with no zero check. -/
def processSlopesD (xy : Fin 6 → Option ℚ) (x2 : Option ℚ) : Fin 6 → Option ℚ :=
  fun i => dDiv (xy i) x2

/-- One per-channel accumulation term of the measuring loop,
(((signal_resolution_multiplier * specReadings[i]) / initial[i]) - 1)
* current_time_total_minutes, in the non-finite-tracking model. -/
def dxyTerm (r init : ℚ) (t : ℕ) : Option ℚ :=
  dMul (dSub (dDiv (some (scaleM * r)) (some init)) (some 1)) (some (ctm t))

/-- Bytes of a string, for building concrete device streams. -/
def strBytes (s : String) : List ℕ := s.toList.map Char.toNat

/-- The 20 bytes of the literal configuration header
"index,r,o,y,g,b,v,uv". -/
def headerBytes : List ℕ :=
  [105, 110, 100, 101, 120, 44, 114, 44, 111, 44, 121, 44, 103, 44, 98, 44,
   118, 44, 117, 118]

/-- checkHeader of loadConfig, on the byte stream of the stored file
(after the device preamble), returning the verdict and the unread rest
of the stream.  A byte that reads as a non-positive signed char (0 or
128..255) makes the inner while exit without comparing, so it is
consumed and skipped; end of stream means the 1000-poll retry budget
runs out and the check fails; a comparable byte must match
header[filePosition], and reaching position 19 with a match returns
true. -/
def checkHeaderRun : List ℕ → ℕ → Bool × List ℕ
  | [], _ => (false, [])
  | c :: rest, pos =>
    if c = 0 ∨ 128 ≤ c then checkHeaderRun rest pos
    else if c = headerBytes.getD pos 0 then
      if pos = 19 then (true, rest) else checkHeaderRun rest (pos + 1)
    else (false, c :: rest)

/-- The calibration profile held in the globals index, calibration[6],
uvCalibration. -/
structure Profile where
  idx : ℤ
  calibration : Fin 6 → ℚ
  uvCalibration : ℤ

/-- The zero-valued boot profile (globals before loadConfig runs). -/
def defaultProfile : Profile :=
  { idx := 0, calibration := fun _ => 0, uvCalibration := 0 }

/-- atoi on the bytes of a field, for the plain digit strings the
configuration rows of this firmware contain (no sign, no leading
whitespace). -/
def atoiDigits : List ℕ → ℤ → ℤ
  | [], acc => acc
  | c :: rest, acc =>
    if 48 ≤ c ∧ c ≤ 57 then atoiDigits rest (acc * 10 + ((c : ℤ) - 48)) else acc

/-- atoi of a field. -/
def atoiM (s : List ℕ) : ℤ := atoiDigits s 0

/-- Integer part scan of atof, returning the value and the unread rest. -/
def atofInt : List ℕ → ℚ → ℚ × List ℕ
  | [], acc => (acc, [])
  | c :: rest, acc =>
    if 48 ≤ c ∧ c ≤ 57 then atofInt rest (acc * 10 + ((c : ℚ) - 48))
    else (acc, c :: rest)

/-- Fraction scan of atof. -/
def atofFracLoop : List ℕ → ℚ → ℚ → ℚ
  | [], acc, _ => acc
  | c :: rest, acc, sc =>
    if 48 ≤ c ∧ c ≤ 57 then atofFracLoop rest (acc + ((c : ℚ) - 48) * sc) (sc / 10)
    else acc

/-- atof on the bytes of a field, for the plain decimal strings the
configuration rows of this firmware contain. -/
def atofM (s : List ℕ) : ℚ :=
  match atofInt s 0 with
  | (ip, 46 :: rest) => atofFracLoop rest ip (1 / 10)
  | (ip, _) => ip

/-- updateGlobalConfig: field 0 is the index (atoi), fields 1..6 the
calibration floats (atof), field 7 the ultraviolet baseline (atoi). -/
def updateGlobalConfig (p : Profile) (field : List ℕ) (ci : ℕ) : Profile :=
  if ci = 0 then { p with idx := atoiM field }
  else if ci < 7 then
    { p with calibration := fun j =>
        if (j : ℕ) = ci - 1 then atofM field else p.calibration j }
  else if ci = 7 then { p with uvCalibration := atoiM field }
  else p

/-- The field loop of readConfigData: bytes reading as non-positive
signed chars are consumed without effect (the inner while exits and the
outer loop polls again); a comma closes the current field and moves to
the next config index; a carriage return or line feed closes the field
and ends the parse; any other byte is appended to the field buffer.
End of stream means the retry budget runs out. -/
def readFields (p : Profile) (buf : List ℕ) (ci : ℕ) : List ℕ → Profile
  | [] => p
  | c :: rest =>
    if c = 0 ∨ 128 ≤ c then readFields p buf ci rest
    else if c = 44 ∨ c = 13 ∨ c = 10 then
      let p2 := updateGlobalConfig p buf ci
      if c = 13 ∨ c = 10 then p2 else readFields p2 [] (ci + 1) rest
    else readFields p (buf ++ [c]) ci rest

/-- readConfigData: the first data byte comes from waitForRealChar,
which skips carriage returns and line feeds, then the field loop runs.
(waitForRealChar blocks forever on an empty stream; the claims never
evaluate that case, so an empty rest returns the profile unchanged.) -/
def readConfigData (p : Profile) (s : List ℕ) : Profile :=
  match s.dropWhile (fun c => c == 13 || c == 10) with
  | [] => p
  | c :: rest => readFields p [c] 0 rest

/-- loadConfig on the stored configuration stream with current globals
p: on a header match the data row is parsed into the globals and
nothing is written; on a mismatch the globals are kept and writeConfig
writes them back (second component: the profile written, if any). -/
def loadConfig (s : List ℕ) (p : Profile) : Profile × Option Profile :=
  match checkHeaderRun s 0 with
  | (true, rest) => (readConfigData p rest, none)
  | (false, _) => (p, some p)

/-- The bytes of a stream that the header scanner actually compares:
those reading as a positive signed char. -/
def filteredBytes (s : List ℕ) : List ℕ :=
  s.filter fun c => decide (0 < c ∧ c < 128)

/-- A corrupted stored configuration: a stray 255 byte in front of an
otherwise exact header line, followed by a data row with index 7. -/
def cexStream : List ℕ :=
  255 :: headerBytes ++ [13, 10] ++ strBytes "7,0,0,0,0,0,0,0" ++ [13, 62]

/-- The SD operations a measuring session can emit over the OpenLog
serial channel. -/
inductive SDOp where
  | command (c : String) (file : String)
  | openAppend (file : String)
  | textPayload (s : String)
  | logPayload (t : ℕ) (r : Fin 6 → ℚ) (uv : ℤ)
  | configPayload (p : Profile)
  | closeRecord

/-- Whether an SD operation touches the configuration file. -/
def opConfigFile : SDOp → Bool
  | .command _ f => f == "config.csv"
  | .openAppend f => f == "config.csv"
  | .configPayload _ => true
  | _ => false

/-- writeFile: rm, new, write on the given file. -/
def writeFileOps (f : String) : List SDOp :=
  [.command "rm" f, .command "new" f, .command "write" f]

/-- writeConfig: writeFile on config.csv, then the header line and the
configuration row. -/
def writeConfigOps (p : Profile) : List SDOp :=
  writeFileOps "config.csv" ++ [.textPayload "index,r,o,y,g,b,v,uv", .configPayload p]

/-- startNewLog of the basic build: rm and new on LOG.CSV, open an
append session, write the log header, close the record. -/
def startNewLogOps : List SDOp :=
  [.command "rm" "LOG.CSV", .command "new" "LOG.CSV", .openAppend "LOG.CSV",
   .textPayload "time,red,orange,yellow,green,blue,violet,uv", .closeRecord]

/-- logData of the basic build for one sample. -/
def logDataOps (smp : Sample) : List SDOp :=
  [.openAppend "LOG.CSV", .logPayload smp.t smp.readings smp.uv, .closeRecord]

/-- Every SD operation of a basic-build measuring session over its
samples: startNewLog, then one logData per loop iteration. -/
def basicMeasuringOps (samples : List Sample) : List SDOp :=
  startNewLogOps ++ samples.flatMap logDataOps

/-- The log file name of the advanced build, LOG<index>.CSV. -/
def logName (idx : ℤ) : String := "LOG" ++ toString idx ++ ".CSV"

/-- The session-start sequence of the advanced build measuringMenu1:
sprintf uses the current index and post-increments it, writeConfig
saves the configuration, then the log file is created and its header
appended.  Returns the new index and the emitted operations. -/
def advMeasuringStartOps (idx : ℤ) (p : Profile) : ℤ × List SDOp :=
  (idx + 1,
   writeConfigOps p ++
     [.command "rm" (logName idx), .command "new" (logName idx),
      .openAppend (logName idx),
      .textPayload "time,red,orange,yellow,green,blue,violet,uv", .closeRecord])

/-! Helper lemmas shared by the claim theorems. -/

/-- The extrema update never places the new minimum above the observed
value. -/
lemma updMin_le_self (m v : ℚ) : updMin m v ≤ v := by
  unfold updMin
  split
  · exact le_refl v
  · rename_i hn
    push_neg at hn
    exact le_of_not_lt (by simpa using hn.1)

/-- The extrema update never places the new maximum below the observed
value. -/
lemma le_updMax_self (M v : ℚ) : v ≤ updMax M v := by
  unfold updMax
  split
  · exact le_refl v
  · rename_i hn
    push_neg at hn
    exact le_of_not_lt (by simpa using hn.1)

/-- Range of the quantized position when the observed value sits between
the extrema and the height argument is nonnegative. -/
lemma calcPos_range (m M : ℚ) (hE : ℤ) (v : ℚ) (hmv : m ≤ v) (hvM : v ≤ M)
    (hh : 0 ≤ hE) :
    0 ≤ calculateGraphPosition m M hE v ∧ calculateGraphPosition m M hE v ≤ hE := by
  unfold calculateGraphPosition
  split
  · rename_i hne
    have hmM : m < M := lt_of_le_of_ne (hmv.trans hvM) hne
    have hpos : (0 : ℚ) < M - m := by linarith
    have h0q : 0 ≤ (v - m) / (M - m) * (hE : ℚ) := by
      apply mul_nonneg (div_nonneg (by linarith) (le_of_lt hpos))
      exact_mod_cast hh
    have hq1 : (v - m) / (M - m) * (hE : ℚ) ≤ (hE : ℚ) := by
      have hr : (v - m) / (M - m) ≤ 1 := (div_le_one hpos).mpr (by linarith)
      have := mul_le_of_le_one_left (show (0 : ℚ) ≤ (hE : ℚ) by exact_mod_cast hh) hr
      exact this
    unfold truncQ
    rw [if_pos h0q]
    constructor
    · exact Int.le_floor.mpr (by exact_mod_cast h0q)
    · calc ⌊(v - m) / (M - m) * (hE : ℚ)⌋ ≤ ⌊(hE : ℚ)⌋ := Int.floor_le_floor hq1
        _ = hE := Int.floor_intCast hE
  · exact ⟨le_refl 0, hh⟩

/-- Each cell of a list after a set either comes from the list or is the
written value, so a cell predicate is preserved. -/
lemma set_preserve {P : ℤ → Prop} {a : List ℤ} {n : ℕ} {b : ℤ}
    (ha : ∀ x ∈ a, P x) (hb : P b) : ∀ x ∈ a.set n b, P x := by
  intro x hx
  rcases List.mem_or_eq_of_mem_set hx with h | h
  · exact ha x h
  · exact h ▸ hb

/-- A getD read is a list member or the default. -/
lemma getD_mem_or (a : List ℤ) (i : ℕ) (d : ℤ) :
    a.getD i d ∈ a ∨ a.getD i d = d := by
  induction a generalizing i with
  | nil => right; rfl
  | cons x xs ih =>
    cases i with
    | zero => left; simp [List.getD]
    | succ n =>
      rcases ih n with h | h
      · left; exact List.mem_cons_of_mem x (by simpa [List.getD] using h)
      · right; simpa [List.getD] using h

/-- The shift loop only rearranges cell contents (default 0), so a cell
predicate holding of 0 is preserved. -/
lemma shiftLoopF_preserve {P : ℤ → Prop} (hP0 : P 0) :
    ∀ (fuel : ℕ) (a : List ℤ) (i stop : ℕ),
      (∀ x ∈ a, P x) → ∀ x ∈ shiftLoopF fuel a i stop, P x := by
  intro fuel
  induction fuel with
  | zero => intro a i stop ha; simpa [shiftLoopF] using ha
  | succ n ih =>
    intro a i stop ha
    simp only [shiftLoopF]
    split
    · apply ih
      have hb : P (a.getD i 0) := by
        rcases getD_mem_or a i 0 with h | h
        · exact ha _ h
        · rw [h]; exact hP0
      exact set_preserve ha hb
    · exact ha

/-- One observe call preserves the cell range invariant. -/
lemma observe_preserve (w : ℕ) (h : ℤ) (hh : 1 ≤ h) (s : GraphState) (v : ℚ)
    (ha : ∀ x ∈ s.arr, 0 ≤ x ∧ x ≤ h - 1) :
    ∀ x ∈ (observe w h s v).arr, 0 ≤ x ∧ x ≤ h - 1 := by
  have hr := calcPos_range (updMin s.xMin v) (updMax s.xMax v) (h - 1) v
    (updMin_le_self s.xMin v) (le_updMax_self s.xMax v) (by omega)
  unfold observe
  split
  · exact set_preserve ha hr
  · refine set_preserve ?_ hr
    unfold shiftLoop
    exact shiftLoopF_preserve ⟨le_refl 0, by omega⟩ _ _ _ _ ha

/-- The occupancy counter of one observe call. -/
lemma observe_len (w : ℕ) (h : ℤ) (s : GraphState) (v : ℚ) :
    (observe w h s v).len = if s.len < w then s.len + 1 else s.len := by
  unfold observe
  split
  · rfl
  · rfl


/-- The extrema of one observe call. -/
lemma observe_extrema (w : ℕ) (h : ℤ) (s : GraphState) (v : ℚ) :
    (observe w h s v).xMin = updMin s.xMin v ∧
      (observe w h s v).xMax = updMax s.xMax v := by
  unfold observe
  split
  · exact ⟨rfl, rfl⟩
  · exact ⟨rfl, rfl⟩

/-- The acceptance branch never touches the initial readings or the
capture flag. -/
lemma regAccum_fields (s1 : RegState) (smp : Sample) :
    (regAccum s1 smp).initialTaken = s1.initialTaken ∧
      (regAccum s1 smp).initial = s1.initial := by
  unfold regAccum
  split
  · exact ⟨rfl, rfl⟩
  · exact ⟨rfl, rfl⟩

/-- A regression step on a state that has already captured its initial
readings leaves them untouched. -/
lemma regStep_taken (s : RegState) (smp : Sample) (h : s.initialTaken = true) :
    (regStep s smp).initialTaken = true ∧ (regStep s smp).initial = s.initial := by
  unfold regStep
  have hc : captureInitial s smp = s := by unfold captureInitial; rw [if_pos h]
  rw [hc]
  obtain ⟨h1, h2⟩ := regAccum_fields s smp
  exact ⟨h1.trans h, h2⟩

/-- A whole run from a state that has captured its initial readings
leaves them untouched. -/
lemma foldl_taken (l : List Sample) (s : RegState) (h : s.initialTaken = true) :
    (List.foldl regStep s l).initialTaken = true ∧
      (List.foldl regStep s l).initial = s.initial := by
  induction l generalizing s with
  | nil => exact ⟨h, rfl⟩
  | cons a as ih =>
    rw [List.foldl_cons]
    obtain ⟨h1, h2⟩ := regStep_taken s a h
    obtain ⟨h3, h4⟩ := ih _ h1
    exact ⟨h3, h4.trans h2⟩

/-- The first regression step captures the first sample's readings. -/
lemma regStep_first (smp : Sample) :
    (regStep initReg smp).initialTaken = true ∧
      (regStep initReg smp).initial = smp.readings := by
  unfold regStep
  have hc : captureInitial initReg smp =
      { initReg with initial := smp.readings, initialTaken := true } := by
    unfold captureInitial
    rw [if_neg (by simp [initReg])]
  rw [hc]
  obtain ⟨h1, h2⟩ := regAccum_fields
    { initReg with initial := smp.readings, initialTaken := true } smp
  exact ⟨h1, h2⟩

/-- Splitting one position off a drop of the header bytes. -/
lemma headerBytes_drop (pos : ℕ) (hpos : pos ≤ 19) :
    headerBytes.drop pos = headerBytes.getD pos 0 :: headerBytes.drop (pos + 1) := by
  interval_cases pos <;> rfl

/-- If the header scanner succeeds from position pos, the comparable
bytes of the stream continue the header from that position. -/
lemma checkHeaderRun_true (s : List ℕ) : ∀ pos : ℕ, pos ≤ 19 →
    (checkHeaderRun s pos).1 = true →
    (filteredBytes s).take (20 - pos) = headerBytes.drop pos := by
  induction s with
  | nil =>
    intro pos _ hT
    simp [checkHeaderRun] at hT
  | cons c rest ih =>
    intro pos hpos hT
    rw [checkHeaderRun] at hT
    by_cases hskip : c = 0 ∨ 128 ≤ c
    · rw [if_pos hskip] at hT
      have hcf : ¬ (0 < c ∧ c < 128) := by
        rcases hskip with h0 | h0 <;> omega
      have hfe : filteredBytes (c :: rest) = filteredBytes rest := by
        simp only [filteredBytes, List.filter_cons, decide_eq_true_eq]
        rw [if_neg hcf]
      rw [hfe]
      exact ih pos hpos hT
    · rw [if_neg hskip] at hT
      have hc : 0 < c ∧ c < 128 := by
        push_neg at hskip
        omega
      have hfe : filteredBytes (c :: rest) = c :: filteredBytes rest := by
        simp [filteredBytes, List.filter_cons, hc]
      rw [hfe]
      by_cases hm : c = headerBytes.getD pos 0
      · rw [if_pos hm] at hT
        by_cases h19 : pos = 19
        · subst h19
          rw [show (20 : ℕ) - 19 = 1 from rfl, hm, List.take_succ_cons, List.take_zero]
          rfl
        · rw [if_neg h19] at hT
          have h2 := ih (pos + 1) (by omega) hT
          rw [headerBytes_drop pos hpos, ← hm]
          rw [show (20 : ℕ) - pos = (20 - (pos + 1)) + 1 by omega, List.take_succ_cons, h2]
      · rw [if_neg hm] at hT
        simp at hT

/-! Claim theorems. -/

/-- Claim C1, counterexample: on the session of Scenario A (initial
reading 100, accepted readings 110, 120, 130 at elapsed times 1, 2, 3
minutes), the accumulators of the code do not take the claimed values:
sumXX is not 14, sumXY is not 1400000, the slope is not 100000, and
even the claimed per-sample y value 100000 disagrees with the code's
y = (scale * reading) / initial - 1 at the first accepted sample. -/
theorem scenarioA_claim_false :
    (runReg scenarioA).x2 ≠ 14 ∧
    (runReg scenarioA).xy 0 ≠ 1400000 ∧
    processSlopes (runReg scenarioA).xy (runReg scenarioA).x2 0 ≠ 100000 ∧
    scaleM * 110 / 100 - 1 ≠ (100000 : ℚ) := by
  norm_num [runReg, scenarioA, List.foldl_cons, List.foldl_nil, regStep, regAccum,
    captureInitial, acceptB, initReg, constReadings, maxlen, ms_time, ctm, scaleM,
    timeResM, processSlopes]

/-- Claim C1 (corrected): on the session of Scenario A the code's
accumulators hold x values scaled to milli-minutes (1000, 2000, 3000)
and y values (scale * reading) / initial - 1 (1099999, 1199999,
1299999), so that after the three accepted samples sumXX = 14000000,
sumXY = 7399994000, the captured initial is 100, and the reduced slope
is 528571/1000 = 528.571. -/
theorem scenarioA_actual_values :
    (runReg scenarioA).datalen = 3 ∧
    (runReg scenarioA).initial 0 = 100 ∧
    (runReg scenarioA).x2 = 14000000 ∧
    (runReg scenarioA).xy 0 = 7399994000 ∧
    processSlopes (runReg scenarioA).xy (runReg scenarioA).x2 0 = 528571 / 1000 := by
  norm_num [runReg, scenarioA, List.foldl_cons, List.foldl_nil, regStep, regAccum,
    captureInitial, acceptB, initReg, constReadings, maxlen, ms_time, ctm, scaleM,
    timeResM, processSlopes]

/-- Claim C2 (code bug): the basic build's wall-clock exit test
current_time_total_minutes >= 5 compares minutes scaled by 1000 against
5, so it fires exactly once elapsed time reaches 300 milliseconds: a
first sampling iteration at 450 ms already exits the loop although
450 ms is far below the 5-minute ceiling of 300000 ms, while the
advanced build's test fires exactly at the 60-minute ceiling. -/
theorem basic_measuring_exit_premature :
    (∀ t : ℕ, basicExitB t = decide (300 ≤ t)) ∧
    firstExitIdx [450, 6450, 12450] = some 0 ∧
    (450 : ℕ) < 5 * 60000 ∧
    advExitB 3599999 = false ∧ advExitB 3600000 = true := by
  have key : ∀ t : ℕ, basicExitB t = decide (300 ≤ t) := by
    intro t
    have hc : ctm t = (t : ℚ) / 60 := by
      unfold ctm timeResM
      norm_num
    have hiff : ((5 : ℚ) ≤ ctm t) ↔ (300 ≤ t) := by
      rw [hc, le_div_iff₀ (by norm_num : (0 : ℚ) < 60)]
      constructor
      · intro hx
        exact_mod_cast (by linarith : (300 : ℚ) ≤ (t : ℚ))
      · intro hx
        have : (300 : ℚ) ≤ (t : ℚ) := by exact_mod_cast hx
        linarith
    unfold basicExitB
    exact decide_eq_decide.mpr hiff
  refine ⟨key, ?_, by norm_num, by decide, by decide⟩
  rw [firstExitIdx, key 450]
  norm_num

/-- Claim C3, counterexample: with sumXX = 0 (no accepted sample, as
in every run the premature exit of the basic build produces) the code
divides anyway and each channel's slope is a non-finite double
(modelled none), and a channel whose initial reading is 0 gets a
non-finite xy accumulation term, so a not-a-number value is produced
rather than any explicit failure result. -/
theorem slopes_nan_on_zero_denominators :
    processSlopesD (fun _ => some 0) (some 0) 0 = none ∧
    dxyTerm 110 0 60000 = none := by
  constructor
  · simp [processSlopesD, dDiv]
  · simp [dxyTerm, dDiv, dSub, dMul]

/-- Claim C3 (corrected): processSlopes performs the division
unguarded, so whenever sumXX = 0 every channel's slope is the
non-finite double (none), and whenever a channel's initial reading is
0 its accumulation term (and hence its xy sum and slope) is
non-finite; the code contains no explicit DivideByZero or
InsufficientData result, the non-finite value simply flows into the
result calculation. -/
theorem slopes_unguarded_division :
    (∀ (xy : Fin 6 → Option ℚ) (i : Fin 6), processSlopesD xy (some 0) i = none) ∧
    (∀ (r : ℚ) (t : ℕ), dxyTerm r 0 t = none) := by
  constructor
  · intro xy i
    unfold processSlopesD dDiv
    cases xy i <;> simp
  · intro r t
    simp [dxyTerm, dDiv, dSub, dMul]

/-- Claim C4 (code bug): on a width-3, height-18 GraphWindow observing
10, 20, 15, 5 the code's overflow shift for (i = 1; i < xLen-1; i++)
copies only index 1 to index 0, so the stored positions end as
[17, 17, 0] — the oldest entry and the previous newest entry are both
gone and the middle entry is duplicated — not the [17, 8, 0] that
removing exactly the single oldest stored position would leave. -/
theorem graph_overflow_drops_two :
    (([10, 20, 15, 5] : List ℚ).foldl (observe 3 18) (initGraph 3)).arr = [17, 17, 0] ∧
    (([10, 20, 15, 5] : List ℚ).foldl (observe 3 18) (initGraph 3)).arr ≠ [17, 8, 0] := by
  norm_num [List.foldl_cons, List.foldl_nil, observe, initGraph, updMin, updMax,
    calculateGraphPosition, truncQ, shiftLoop, shiftLoopF,
    List.replicate_succ, List.set_cons_zero, List.set_cons_succ]

/-- Claim C5 (confirmed): after any sequence of N observe calls on a
GraphWindow channel of configured width w, the occupancy of the stored
sequence is exactly min N w, so it never exceeds w. -/
theorem graph_len_eq_min (w : ℕ) (h : ℤ) (vs : List ℚ) :
    (vs.foldl (observe w h) (initGraph w)).len = min vs.length w := by
  suffices H : ∀ (l : List ℚ) (s : GraphState), s.len ≤ w →
      (l.foldl (observe w h) s).len = min (s.len + l.length) w by
    simpa [initGraph] using H vs (initGraph w) (by simp [initGraph])
  intro l
  induction l with
  | nil =>
    intro s hs
    simpa using (Nat.min_eq_left hs).symm
  | cons a as ih =>
    intro s hs
    rw [List.foldl_cons]
    have hlen := observe_len w h s a
    by_cases hlt : s.len < w
    · rw [if_pos hlt] at hlen
      rw [ih _ (by omega), hlen]
      simp only [List.length_cons]
      omega
    · rw [if_neg hlt] at hlen
      rw [ih _ (by omega), hlen]
      simp only [List.length_cons]
      omega

/-- Claim C6, counterexample: observing 0, 3, 1 on a width-3 height-18
channel leaves the quantized position of the third observation (min 0,
max 3) stored as 5 = trunc((1/3) * 17), while the claimed
round((value - min)/(max - min) * (height - 1)) is 6, so the position
is not the rounding the claim states. -/
theorem graph_position_not_round :
    (([0, 3, 1] : List ℚ).foldl (observe 3 18) (initGraph 3)).arr.getD 2 0 = 5 ∧
    round (((1 : ℚ) - 0) / (3 - 0) * ((18 : ℚ) - 1)) = 6 := by
  constructor
  · norm_num [List.foldl_cons, List.foldl_nil, observe, initGraph, updMin, updMax,
      calculateGraphPosition, truncQ, shiftLoop, shiftLoopF,
      List.replicate_succ, List.set_cons_zero, List.set_cons_succ]
  · norm_num [round_eq]

/-- Claim C6 (corrected): the quantized position computed by an observe
call for value v against the updated running extrema equals 0 when they
coincide, and otherwise equals the floor (C truncation toward zero of
the nonnegative in-range ratio) of (v - min)/(max - min) * (height - 1),
not its rounding. -/
theorem graph_position_truncates (s : GraphState) (v : ℚ) (h : ℤ) (hh : 1 ≤ h) :
    (updMin s.xMin v = updMax s.xMax v →
      calculateGraphPosition (updMin s.xMin v) (updMax s.xMax v) (h - 1) v = 0) ∧
    (updMin s.xMin v ≠ updMax s.xMax v →
      calculateGraphPosition (updMin s.xMin v) (updMax s.xMax v) (h - 1) v =
        ⌊(v - updMin s.xMin v) / (updMax s.xMax v - updMin s.xMin v) * ((h : ℚ) - 1)⌋) := by
  constructor
  · intro he
    unfold calculateGraphPosition
    rw [if_neg (by simp [he])]
  · intro hne
    have hm := updMin_le_self s.xMin v
    have hM := le_updMax_self s.xMax v
    have hlt : updMin s.xMin v < updMax s.xMax v := lt_of_le_of_ne (hm.trans hM) hne
    unfold calculateGraphPosition
    rw [if_pos hne]
    have h0 : 0 ≤ (v - updMin s.xMin v) / (updMax s.xMax v - updMin s.xMin v) *
        (((h - 1 : ℤ)) : ℚ) := by
      apply mul_nonneg (div_nonneg (by linarith) (by linarith))
      have : (0 : ℤ) ≤ h - 1 := by omega
      exact_mod_cast this
    unfold truncQ
    rw [if_pos h0]
    congr 1
    push_cast
    ring

/-- Witness for the corrected claim C6 at a concrete observation
(previous extrema 0 and 3, value 1, height 18). -/
theorem graph_position_truncates_witness :
    calculateGraphPosition (updMin 0 1) (updMax 3 1) (18 - 1) 1 =
      ⌊((1 : ℚ) - updMin 0 1) / (updMax 3 1 - updMin 0 1) * ((18 : ℚ) - 1)⌋ :=
  (graph_position_truncates { len := 0, arr := [], xMin := 0, xMax := 3 } 1 18
    (by norm_num)).2 (by norm_num [updMin, updMax])

/-- Claim C7, counterexample: in a session whose first sample (reading
100, at 300 ms) fails the rate-limit acceptance test and whose second
sample (reading 110, at 6400 ms) is the first accepted one, the
captured initial reading is 100, the reading of the first sample, not
the 110 of the first accepted sample. -/
theorem initial_not_first_accepted :
    acceptB (captureInitial initReg { t := 300, readings := constReadings 100, uv := 0 })
      { t := 300, readings := constReadings 100, uv := 0 } = false ∧
    acceptB (regStep initReg { t := 300, readings := constReadings 100, uv := 0 })
      { t := 6400, readings := constReadings 110, uv := 0 } = true ∧
    (runReg [{ t := 300, readings := constReadings 100, uv := 0 },
             { t := 6400, readings := constReadings 110, uv := 0 }]).initial 0 = 100 ∧
    (runReg [{ t := 300, readings := constReadings 100, uv := 0 },
             { t := 6400, readings := constReadings 110, uv := 0 }]).initial 0 ≠
      constReadings 110 0 := by
  norm_num [runReg, List.foldl_cons, List.foldl_nil, regStep, regAccum,
    captureInitial, acceptB, initReg, constReadings, maxlen, ms_time]

/-- Claim C7 (corrected): in every measuring session the initial
readings are captured exactly once, from the first sample of the
session — the first loop iteration, whether or not that sample passes
the rate-limit acceptance test — and no later step of this or any
continuation of the run rewrites them. -/
theorem initial_from_first_sample (l : List Sample) (hne : l ≠ []) :
    (runReg l).initialTaken = true ∧
    (runReg l).initial = (l.head hne).readings ∧
    ∀ l2 : List Sample,
      (List.foldl regStep (runReg l) l2).initial = (l.head hne).readings := by
  obtain ⟨a, as, rfl⟩ : ∃ a as, l = a :: as := by
    cases l with
    | nil => exact absurd rfl hne
    | cons a as => exact ⟨a, as, rfl⟩
  unfold runReg
  rw [List.foldl_cons]
  obtain ⟨h1, h2⟩ := regStep_first a
  obtain ⟨h3, h4⟩ := foldl_taken as _ h1
  refine ⟨h3, h4.trans h2, ?_⟩
  intro l2
  obtain ⟨h5, h6⟩ := foldl_taken l2 _ h3
  rw [h6, h4, h2]
  rfl

/-- Witness for the corrected claim C7 on a one-sample session. -/
theorem initial_from_first_sample_witness :
    (runReg [{ t := 300, readings := constReadings 100, uv := 0 }]).initialTaken = true ∧
    (runReg [{ t := 300, readings := constReadings 100, uv := 0 }]).initial =
      constReadings 100 := by
  refine ⟨(initial_from_first_sample
    [{ t := 300, readings := constReadings 100, uv := 0 }] (by simp)).1,
    (initial_from_first_sample
    [{ t := 300, readings := constReadings 100, uv := 0 }] (by simp)).2.1⟩

/-- Claim C8, counterexample: the stored stream cexStream has a first
line that differs from the 20-byte header (a stray byte 255 in front,
so already its first byte disagrees), yet loadConfig accepts the
header — the scanner consumes the 255 without comparing it — parses
the data row, adopts a profile with index 7 instead of the zero
default, and writes nothing back. -/
theorem header_skip_accepts_corrupted :
    cexStream.take 20 ≠ headerBytes ∧
    (loadConfig cexStream defaultProfile).1.idx = 7 ∧
    (loadConfig cexStream defaultProfile).2.isNone = true := by
  refine ⟨by decide, by decide, by decide⟩

/-- Claim C8 (corrected): whenever the comparable bytes of the stored
stream (those reading as a positive signed char; bytes 0 and 128..255
are consumed but skipped) do not begin with the exact 20-byte header
"index,r,o,y,g,b,v,uv", loadConfig at boot keeps the zero-valued
default profile and writes that default back to storage, adopting no
partially parsed profile; a corruption consisting only of inserted
skipped bytes, or lying after the first 20 comparable bytes of the
line, is however not detected. -/
theorem header_mismatch_defaults (s : List ℕ)
    (h : (filteredBytes s).take 20 ≠ headerBytes) :
    loadConfig s defaultProfile = (defaultProfile, some defaultProfile) := by
  unfold loadConfig
  rcases hE : checkHeaderRun s 0 with ⟨b, rest⟩
  cases b with
  | true =>
    exfalso
    have hT : (checkHeaderRun s 0).1 = true := by rw [hE]
    have := checkHeaderRun_true s 0 (by omega) hT
    rw [Nat.sub_zero, List.drop_zero] at this
    exact h this
  | false =>
    rfl

/-- Witness for the corrected claim C8 on the empty stream (an absent
or truncated file). -/
theorem header_mismatch_defaults_witness :
    loadConfig [] defaultProfile = (defaultProfile, some defaultProfile) :=
  header_mismatch_defaults [] (by decide)

/-- Claim C9, counterexample: starting a measuring session in the
advanced build writes the configuration file — the emitted operations
include the write command on config.csv issued by writeConfig — and
increments the persistent session index from 0 to 1 to name the new
log file. -/
theorem advanced_session_writes_config :
    (advMeasuringStartOps 0 defaultProfile).1 = 1 ∧
    SDOp.command "write" "config.csv" ∈ (advMeasuringStartOps 0 defaultProfile).2 := by
  refine ⟨by decide, ?_⟩
  unfold advMeasuringStartOps writeConfigOps writeFileOps
  simp

/-- Claim C9 (corrected): in the basic build a measuring session emits
no operation that touches the configuration file and leaves the
session index alone, but in the advanced build the session-start
sequence of measuringMenu1 itself calls writeConfig — so a
configuration write is part of starting a measuring session — and
increments the persistent session index. -/
theorem config_write_sites :
    (∀ (samples : List Sample), ∀ op ∈ basicMeasuringOps samples,
      opConfigFile op = false) ∧
    (∀ (idx : ℤ) (p : Profile),
      (advMeasuringStartOps idx p).1 = idx + 1 ∧
      ∃ op ∈ (advMeasuringStartOps idx p).2, opConfigFile op = true) := by
  constructor
  · intro samples op hop
    rcases List.mem_append.mp hop with h | h
    · simp only [startNewLogOps, List.mem_cons, List.not_mem_nil, or_false] at h
      rcases h with rfl | rfl | rfl | rfl | rfl <;> rfl
    · rcases List.mem_flatMap.mp h with ⟨smp, _, hmem⟩
      simp only [logDataOps, List.mem_cons, List.not_mem_nil, or_false] at hmem
      rcases hmem with rfl | rfl | rfl <;> rfl
  · intro idx p
    refine ⟨rfl, SDOp.command "write" "config.csv", ?_, rfl⟩
    unfold advMeasuringStartOps writeConfigOps writeFileOps
    simp

/-- Claim C10 (confirmed): for every sequence of observed values,
negative ones included, every cell of the stored position array of a
GraphWindow channel lies between 0 and height - 1 inclusive: the
extrema are updated with the new value before its position is
computed, so the scaling ratio always lies between 0 and 1. -/
theorem graph_positions_in_range (w : ℕ) (h : ℤ) (hh : 1 ≤ h) (vs : List ℚ) :
    ∀ x ∈ (vs.foldl (observe w h) (initGraph w)).arr, 0 ≤ x ∧ x ≤ h - 1 := by
  have base : ∀ x ∈ (initGraph w).arr, 0 ≤ x ∧ x ≤ h - 1 := by
    intro x hx
    have hx0 := List.eq_of_mem_replicate (by simpa [initGraph] using hx)
    subst hx0
    exact ⟨le_refl 0, by omega⟩
  suffices H : ∀ (l : List ℚ) (s : GraphState),
      (∀ x ∈ s.arr, 0 ≤ x ∧ x ≤ h - 1) →
      ∀ x ∈ (l.foldl (observe w h) s).arr, 0 ≤ x ∧ x ≤ h - 1 from H vs _ base
  intro l
  induction l with
  | nil => intro s hs; exact hs
  | cons a as ih =>
    intro s hs
    exact ih _ (observe_preserve w h hh s a hs)

/-- Witness for claim C10 on a concrete sequence containing a negative
observation (width 3, height 18, values 10, -4, 3). -/
theorem graph_positions_in_range_witness :
    0 ≤ (([10, -4, 3] : List ℚ).foldl (observe 3 18) (initGraph 3)).arr.getD 2 0 ∧
    (([10, -4, 3] : List ℚ).foldl (observe 3 18) (initGraph 3)).arr.getD 2 0 ≤ 18 - 1 :=
  graph_positions_in_range 3 18 (by norm_num) [10, -4, 3] _ (by
    have harr : (([10, -4, 3] : List ℚ).foldl (observe 3 18) (initGraph 3)).arr
        = [0, 0, 8] := by
      norm_num [List.foldl_cons, List.foldl_nil, observe, initGraph, updMin, updMax,
        calculateGraphPosition, truncQ, shiftLoop, shiftLoopF,
        List.replicate_succ, List.set_cons_zero, List.set_cons_succ]
    rw [harr]
    simp)

end SpinalSolution
